import Mathlib

/-!
Verification of the calendar-interchange task-import routine of the Errands
application (file `errands/widgets/task_lists/task_lists.py`, inner function
`TaskLists._add_actions._import._confirm`).  The routine is shallowly embedded
below: Python string primitives are modelled on `List Char`, the store
collaborator (`UserData`) is modelled from the specification, and the
orchestration of the `_confirm` body is an explicit state-passing function.
-/

namespace Errands

/-- Membership of a character in a Python character-set string, as used by
`str.strip` / `str.rstrip` with a string argument. -/
def charIn (chars : String) (c : Char) : Bool :=
  chars.data.contains c

/-- Python `s.rstrip(chars)`: remove trailing characters belonging to the set
`chars` (a character set, not a suffix). -/
def pyRstrip (s chars : String) : String :=
  String.mk ((s.data.reverse.dropWhile (charIn chars)).reverse)

/-- Python `s.strip(chars)`: remove leading and trailing characters belonging
to the set `chars`. -/
def pyStrip (s chars : String) : String :=
  String.mk (((s.data.dropWhile (charIn chars)).reverse.dropWhile (charIn chars)).reverse)

/-- Removal of every trailing `Z` character only (the spec's reading of the
date normalisation: the ISO rendering with the trailing UTC designator
stripped).  Used to compare the code's two-sided `strip("Z")` against the
spec's description. -/
def stripTrailingZ (s : String) : String :=
  String.mk ((s.data.reverse.dropWhile (fun c => c == 'Z')).reverse)

/-- Accumulating decimal-digit parser over the characters of a field value. -/
def parseDigitsAux : List Char → Nat → Option Nat
  | [], acc => some acc
  | c :: cs, acc =>
      if c.isDigit then parseDigitsAux cs (acc * 10 + (c.toNat - 48)) else none

/-- Non-empty run of decimal digits. -/
def parseDigits : List Char → Option Nat
  | [] => none
  | c :: cs => parseDigitsAux (c :: cs) 0

/-- Python `int(x)` applied to the decoded value of a numeric calendar field
(an optionally negated run of decimal digits): on a well-formed integer
string it yields the integer, otherwise the conversion fails (a `ValueError`,
modelled as `none`). -/
def pyInt (s : String) : Option Int :=
  match s.data with
  | '-' :: rest => (parseDigits rest).map (fun n => -(n : Int))
  | l => (parseDigits l).map (fun n => (n : Int))

/-- A numeric field as consumed by `int(todo.get("PRIORITY", 0))`: an absent
field takes the default `0` supplied at the call site, a present one goes
through the conversion. -/
def pyIntField : Option String → Option Int
  | none => some 0
  | some s => pyInt s

/-- Raw value of a `CATEGORIES` field as handed over by the parser: either a
single category property carrying its list of category values (`tags.cats` in
the source), or a list of category properties (the `isinstance(tags, list)`
branch). -/
inductive CatVal where
  | one (cats : List String)
  | many (groups : List (List String))
deriving DecidableEq

/-- One raw `VTODO` component as produced by `Calendar.from_ical(...).walk("VTODO")`.
Date fields hold the `to_ical().decode("utf-8")` rendering of the value. -/
structure CalendarRecord where
  uid : Option String
  summary : Option String
  description : Option String
  status : Option String
  categories : Option CatVal
  dtstart : Option String
  due : Option String
  dtend : Option String
  priority : Option String
  percent_complete : Option String
  related_to : Option String
  custom_color : Option String
deriving DecidableEq

/-- The keyword arguments assembled for one `UserData.add_task(...)` call. -/
structure TaskFields where
  color : String
  completed : Bool
  end_date : String
  notes : String
  parent : String
  percent_complete : Int
  priority : Int
  start_date : String
  tags : String
  text : String
  uid : Option String
deriving DecidableEq

/-- Tag normalisation (lines 68-76 of the source): absent categories give the
empty string, a single category property joins its values with commas, a list
of properties joins each property's `to_ical` rendering with commas. -/
def tagsField : Option CatVal → String
  | none => ""
  | some (CatVal.one cats) => String.intercalate "," cats
  | some (CatVal.many groups) =>
      String.intercalate "," (groups.map (String.intercalate ","))

/-- Date normalisation (lines 78-96): a present field is rendered and passed
through `strip("Z")`; an absent field gives the empty string. -/
def dateField : Option String → String
  | none => ""
  | some s => pyStrip s "Z"

/-- The end-date source: `todo.get("DUE", todo.get("DTEND", ""))`, i.e. `DUE`
preferred over `DTEND`. -/
def pickEnd (r : CalendarRecord) : Option String :=
  match r.due with
  | some s => some s
  | none => r.dtend

/-- Field normalisation for one record: the computation of the keyword
arguments of the `UserData.add_task` call (lines 97-110).  The two `int(...)`
conversions can fail on a present non-numeric value, in which case the whole
record raises (`none`). -/
def normalizeRecord (r : CalendarRecord) : Option TaskFields :=
  match pyIntField r.percent_complete, pyIntField r.priority with
  | some pc, some pr =>
      some { color := r.custom_color.getD ""
             completed := r.status.getD "" == "COMPLETED"
             end_date := dateField (pickEnd r)
             notes := r.description.getD ""
             parent := r.related_to.getD ""
             percent_complete := pc
             priority := pr
             start_date := dateField r.dtstart
             tags := tagsField r.categories
             text := r.summary.getD ""
             uid := r.uid }
  | _, _ => none

/-- One row of the `lists` table.  Modelled from the spec: `TaskList` is
`uid, name, deleted`; the application soft-deletes lists (the sidebar loader
filters on `not i["deleted"]`). -/
structure ListRow where
  uid : String
  name : String
  deleted : Bool
deriving DecidableEq

/-- One persisted task row, as created by `UserData.add_task`. -/
structure TaskRow where
  uid : String
  list_uid : String
  parent : String
  text : String
  notes : String
  completed : Bool
  tags : String
  start_date : String
  end_date : String
  priority : Int
  percent_complete : Int
  color : String
deriving DecidableEq

/-- The persistent store visible to the routine: the `lists` and `tasks`
tables plus a counter supplying fresh identifiers (`uuid4` in the source,
modelled as a deterministic supply). -/
structure Store where
  lists : List ListRow
  tasks : List TaskRow
  counter : Nat
deriving DecidableEq

/-- Fresh identifier from the supply. -/
def genUid (n : Nat) : String :=
  "gen-" ++ toString n

/-- Modelled from the spec: the Task Store collaborator's
`create list(name) -> uid` (`UserData.add_list`), which persists a new
non-deleted list row under a fresh uid. -/
def add_list (st : Store) (name : String) : String × Store :=
  let g := genUid st.counter
  (g, ⟨st.lists ++ [⟨g, name, false⟩], st.tasks, st.counter + 1⟩)

/-- Row built from the normalised fields, the target list uid and the
persisted task uid. -/
def mkRow (listUid uid : String) (f : TaskFields) : TaskRow :=
  ⟨uid, listUid, f.parent, f.text, f.notes, f.completed, f.tags,
    f.start_date, f.end_date, f.priority, f.percent_complete, f.color⟩

/-- Modelled from the spec: the Task Store collaborator's
`create task(fields) -> uid` (`UserData.add_task`).  Per spec section 4.4
step 1, a missing or empty source uid is replaced by a freshly generated
store-wide identifier; otherwise the given uid is persisted unchanged. -/
def add_task (st : Store) (listUid : String) (f : TaskFields) : String × Store :=
  if f.uid.getD "" = "" then
    (genUid st.counter,
      ⟨st.lists, st.tasks ++ [mkRow listUid (genUid st.counter) f], st.counter + 1⟩)
  else
    (f.uid.getD "",
      ⟨st.lists, st.tasks ++ [mkRow listUid (f.uid.getD "") f], st.counter⟩)

/-- The comparison set of the name-collision check:
`[i[0] for i in UserData.run_sql("SELECT name FROM lists", fetch=True)]` —
the names of ALL rows of the `lists` table, with no filter on `deleted`. -/
def existingNames (st : Store) : List String :=
  st.lists.map ListRow.name

/-- Name-collision resolution (lines 58-62): when the proposed name is among
the existing names, the f-string `f"{name}_{uuid4()}"` appends an underscore
and a freshly generated token (`sfx` models the `uuid4()` draw); otherwise
the name is returned unchanged.  No re-check against the existing set is
performed. -/
def resolve_name (name : String) (existing : List String) (sfx : String) : String :=
  if name ∈ existing then name ++ "_" ++ sfx else name

/-- Candidate list name (lines 55-57):
`calendar.get("X-WR-CALNAME", file.get_basename().rstrip(".ics"))` — the
declared calendar name when present, else the basename passed through
`rstrip(".ics")`. -/
def candidateName (calname : Option String) (basename : String) : String :=
  calname.getD (pyRstrip basename ".ics")

/-- Parsed calendar: the declared name and the ordered `VTODO` records. -/
structure ParsedCal where
  calname : Option String
  todos : List CalendarRecord
deriving DecidableEq

/-- Outcome of one run of the `_confirm` body. -/
inductive RunOutcome where
  | ok
  | parseErr
  | storeErr
deriving DecidableEq

/-- Result of one run: outcome, final store, number of `Sync.sync()` calls. -/
structure RunResult where
  outcome : RunOutcome
  store : Store
  syncCalls : Nat
deriving DecidableEq

/-- The task-creation loop (lines 66-110): each record is normalised (a
normalisation error aborts the loop as a raised exception) and persisted via
`add_task`; `failAt k` models the store collaborator failing to apply the
`k`-th task mutation.  Returns whether the loop completed, and the store as
left behind — already-applied mutations are never rolled back. -/
def addTasks (listUid : String) (failAt : Nat → Bool) :
    List CalendarRecord → Nat → Store → Bool × Store
  | [], _, st => (true, st)
  | r :: rs, k, st =>
      match normalizeRecord r with
      | none => (false, st)
      | some f =>
          if failAt k then (false, st)
          else addTasks listUid failAt rs (k + 1) (add_task st listUid f).2

/-- The name under which the imported list is created: the candidate name of
lines 55-57 passed through the collision check of lines 58-62. -/
def importName (cal : ParsedCal) (basename sfx : String) (st : Store) : String :=
  resolve_name (candidateName cal.calname basename) (existingNames st) sfx

/-- The `_confirm` body after a file was chosen (lines 52-113): parse (a
malformed document raises before anything is written), derive and de-collide
the list name, create the list (`listFail` models the store failing that
mutation), create the tasks, and call `Sync.sync()` exactly once at the very
end of the successful path. -/
def runImport (parse : Option ParsedCal) (basename sfx : String)
    (listFail : Bool) (failAt : Nat → Bool) (st : Store) : RunResult :=
  match parse with
  | none => ⟨RunOutcome.parseErr, st, 0⟩
  | some cal =>
      if listFail then ⟨RunOutcome.storeErr, st, 0⟩
      else
        match addTasks (add_list st (importName cal basename sfx st)).1 failAt
            cal.todos 0 (add_list st (importName cal basename sfx st)).2 with
        | (true, st2) => ⟨RunOutcome.ok, st2, 1⟩
        | (false, st2) => ⟨RunOutcome.storeErr, st2, 0⟩

/-- A record with every field absent, used to build concrete instances. -/
def emptyRec : CalendarRecord :=
  ⟨none, none, none, none, none, none, none, none, none, none, none, none⟩

/-- Inversion of a successful normalisation: each field of the produced
task in terms of the source record. -/
theorem normalize_fields (r : CalendarRecord) (f : TaskFields)
    (h : normalizeRecord r = some f) :
    pyIntField r.percent_complete = some f.percent_complete ∧
    pyIntField r.priority = some f.priority ∧
    f.color = r.custom_color.getD "" ∧
    f.completed = (r.status.getD "" == "COMPLETED") ∧
    f.end_date = dateField (pickEnd r) ∧
    f.notes = r.description.getD "" ∧
    f.parent = r.related_to.getD "" ∧
    f.start_date = dateField r.dtstart ∧
    f.tags = tagsField r.categories ∧
    f.text = r.summary.getD "" ∧
    f.uid = r.uid := by
  cases hpc : pyIntField r.percent_complete with
  | none => simp [normalizeRecord, hpc] at h
  | some pc =>
    cases hpr : pyIntField r.priority with
    | none => simp [normalizeRecord, hpc, hpr] at h
    | some pr =>
      simp only [normalizeRecord, hpc, hpr, Option.some.injEq] at h
      subst h
      exact ⟨rfl, rfl, rfl, rfl, rfl, rfl, rfl, rfl, rfl, rfl, rfl⟩

theorem charIn_Z (c : Char) : charIn "Z" c = (c == 'Z') := by
  have hz : ("Z" : String).data = ['Z'] := rfl
  cases h : c == 'Z' <;> simp [charIn, hz, List.contains, List.elem, h]

/-- On a string that does not begin with `Z`, the two-sided `strip("Z")` of
the source coincides with removing only the trailing `Z` designator. -/
theorem pyStrip_Z_of_head (s : String) (h : s.data.head? ≠ some 'Z') :
    pyStrip s "Z" = stripTrailingZ s := by
  unfold pyStrip stripTrailingZ
  have hfun : charIn "Z" = fun c => c == 'Z' := funext charIn_Z
  rw [hfun]
  cases hd : s.data with
  | nil => simp
  | cons c t =>
    rw [hd] at h
    have hc : (c == 'Z') = false := by
      simp only [List.head?] at h
      simpa using fun hcz => h (by rw [hcz])
    rw [List.dropWhile_cons, hc]
    simp

theorem add_task_lists (st : Store) (lu : String) (f : TaskFields) :
    (add_task st lu f).2.lists = st.lists := by
  by_cases h : f.uid.getD "" = "" <;> simp [add_task, h]

theorem add_task_tasks (st : Store) (lu : String) (f : TaskFields) :
    (add_task st lu f).2.tasks = st.tasks ++ [mkRow lu (add_task st lu f).1 f] := by
  by_cases h : f.uid.getD "" = "" <;> simp [add_task, h]

/-- The task-creation loop never touches the `lists` table. -/
theorem addTasks_lists (lu : String) (failAt : Nat → Bool) :
    ∀ (todos : List CalendarRecord) (k : Nat) (st : Store),
      (addTasks lu failAt todos k st).2.lists = st.lists := by
  intro todos
  induction todos with
  | nil => intro k st; rfl
  | cons r rs ih =>
    intro k st
    cases hn : normalizeRecord r with
    | none => simp [addTasks, hn]
    | some f =>
      by_cases hk : failAt k
      · simp [addTasks, hn, hk]
      · simp only [addTasks, hn, hk, Bool.false_eq_true, if_false]
        rw [ih, add_task_lists]

/-- The task-creation loop only appends to the `tasks` table. -/
theorem addTasks_tasks (lu : String) (failAt : Nat → Bool) :
    ∀ (todos : List CalendarRecord) (k : Nat) (st : Store),
      ∃ rows, (addTasks lu failAt todos k st).2.tasks = st.tasks ++ rows := by
  intro todos
  induction todos with
  | nil => intro k st; exact ⟨[], by simp [addTasks]⟩
  | cons r rs ih =>
    intro k st
    cases hn : normalizeRecord r with
    | none => exact ⟨[], by simp [addTasks, hn]⟩
    | some f =>
      by_cases hk : failAt k
      · exact ⟨[], by simp [addTasks, hn, hk]⟩
      · obtain ⟨rows, hrows⟩ := ih (k + 1) (add_task st lu f).2
        refine ⟨mkRow lu (add_task st lu f).1 f :: rows, ?_⟩
        simp only [addTasks, hn, hk, Bool.false_eq_true, if_false]
        rw [hrows, add_task_tasks]
        simp

/-- On a fully successful run, the task loop appends exactly one row per
record, in order; each row carries the raw related-to value as its parent and,
when the source uid is present and non-empty, that uid as the persisted uid. -/
theorem addTasks_ok_rows (lu : String) (failAt : Nat → Bool) :
    ∀ (todos : List CalendarRecord) (k : Nat) (st : Store),
      (addTasks lu failAt todos k st).1 = true →
      ∃ rows, (addTasks lu failAt todos k st).2.tasks = st.tasks ++ rows ∧
        ∀ j r, todos.get? j = some r →
          ∃ row, rows.get? j = some row ∧
            row.parent = r.related_to.getD "" ∧
            ∀ u, r.uid = some u → u ≠ "" → row.uid = u := by
  intro todos
  induction todos with
  | nil =>
    intro k st _
    refine ⟨[], by simp [addTasks], ?_⟩
    intro j r hj
    cases j <;> simp [List.get?] at hj
  | cons r rs ih =>
    intro k st hok
    cases hn : normalizeRecord r with
    | none => simp [addTasks, hn] at hok
    | some f =>
      by_cases hk : failAt k
      · simp [addTasks, hn, hk] at hok
      · have hok2 : (addTasks lu failAt rs (k + 1) (add_task st lu f).2).1 = true := by
          simpa only [addTasks, hn, hk, Bool.false_eq_true, if_false] using hok
        obtain ⟨rows, hrows, hspec⟩ := ih (k + 1) (add_task st lu f).2 hok2
        refine ⟨mkRow lu (add_task st lu f).1 f :: rows, ?_, ?_⟩
        · simp only [addTasks, hn, hk, Bool.false_eq_true, if_false]
          rw [hrows, add_task_tasks]
          simp
        · intro j rr hj
          obtain ⟨-, -, -, -, -, -, hpar, -, -, -, huid⟩ := normalize_fields r f hn
          cases j with
          | zero =>
            simp only [List.get?] at hj
            cases hj
            refine ⟨mkRow lu (add_task st lu f).1 f, rfl, ?_, ?_⟩
            · simpa [mkRow] using hpar
            · intro u hu hne
              have hfu : f.uid.getD "" = u := by rw [huid, hu]; rfl
              simp [mkRow, add_task, hfu, hne]
          | succ j' =>
            simp only [List.get?] at hj ⊢
            exact hspec j' rr hj

/-- Record carrying a well-formed negative priority value. -/
def recNegPriority : CalendarRecord :=
  { emptyRec with priority := some "-1" }

/-- Record carrying a non-numeric priority value. -/
def recBadPriority : CalendarRecord :=
  { emptyRec with priority := some "x" }

/-- Normalisation image of `recNegPriority`. -/
def taskNegPriority : TaskFields :=
  { color := "", completed := false, end_date := "", notes := "", parent := "",
    percent_complete := 0, priority := -1, start_date := "", tags := "",
    text := "", uid := none }

/-- C1, counterexample: the claim asserts the imported priority is always a
non-negative integer and that malformed numeric input defaults to 0 without
raising.  The source applies Python `int()` directly: the well-formed value
`-1` normalises to the negative integer `-1`, and the non-numeric value `x`
makes the conversion raise instead of defaulting. -/
theorem c1_counterexample :
    normalizeRecord recNegPriority = some taskNegPriority ∧
    taskNegPriority.priority < 0 ∧
    normalizeRecord recBadPriority = none := by
  refine ⟨by decide, by decide, by decide⟩

/-- C1, amended: `priority` and `percent_complete` equal the parsed integer
value (possibly negative) when the source field is present and parses as an
integer, and equal 0 when the field is absent; a present non-numeric value
makes normalisation fail with an error rather than defaulting to 0. -/
theorem c1_numeric_amended (r : CalendarRecord) :
    (r.priority = none → ∀ f, normalizeRecord r = some f → f.priority = 0) ∧
    (∀ s v, r.priority = some s → pyInt s = some v →
      ∀ f, normalizeRecord r = some f → f.priority = v) ∧
    (∀ s, r.priority = some s → pyInt s = none → normalizeRecord r = none) ∧
    (r.percent_complete = none →
      ∀ f, normalizeRecord r = some f → f.percent_complete = 0) ∧
    (∀ s v, r.percent_complete = some s → pyInt s = some v →
      ∀ f, normalizeRecord r = some f → f.percent_complete = v) ∧
    (∀ s, r.percent_complete = some s → pyInt s = none →
      normalizeRecord r = none) := by
  refine ⟨?_, ?_, ?_, ?_, ?_, ?_⟩
  · intro hn f hf
    obtain ⟨-, hpr, -⟩ := normalize_fields r f hf
    rw [hn] at hpr
    simpa [pyIntField] using hpr.symm
  · intro s v hs hv f hf
    obtain ⟨-, hpr, -⟩ := normalize_fields r f hf
    rw [hs] at hpr
    simp only [pyIntField, hv, Option.some.injEq] at hpr
    exact hpr.symm
  · intro s hs hv
    cases hpc : pyIntField r.percent_complete <;>
      simp [normalizeRecord, hpc, hs, hv, pyIntField]
  · intro hn f hf
    obtain ⟨hpc, -⟩ := normalize_fields r f hf
    rw [hn] at hpc
    simpa [pyIntField] using hpc.symm
  · intro s v hs hv f hf
    obtain ⟨hpc, -⟩ := normalize_fields r f hf
    rw [hs] at hpc
    simp only [pyIntField, hv, Option.some.injEq] at hpc
    exact hpc.symm
  · intro s hs hv
    simp [normalizeRecord, hs, hv, pyIntField]

/-- C1, witness: the amended statement applied to `recNegPriority`. -/
theorem c1_numeric_amended_witness :
    recNegPriority.priority = some "-1" ∧ pyInt "-1" = some (-1) ∧
    ∃ f, normalizeRecord recNegPriority = some f ∧ f.priority = -1 := by
  refine ⟨rfl, by decide, taskNegPriority, by decide, ?_⟩
  exact (c1_numeric_amended recNegPriority).2.1 "-1" (-1) rfl (by decide)
    taskNegPriority (by decide)

/-- C3, counterexample: the claim asserts the resolved name is never a member
of the existing set; the source appends the generated token without checking
the result against the set, so a set already containing the suffixed name
defeats it. -/
theorem c3_counterexample :
    resolve_name "a" ["a", "a_x"] "x" = "a_x" ∧ "a_x" ∈ ["a", "a_x"] := by
  constructor
  · rfl
  · simp

/-- C3, amended: a proposed name not in the existing set is returned
unchanged; a colliding name gets the freshly generated suffix appended and
differs from the proposed name, but the result avoids the existing set only
when the suffixed name is not itself a member — the source performs no
re-check or retry. -/
theorem c3_amended (n sfx : String) (E : List String) :
    (n ∉ E → resolve_name n E sfx = n) ∧
    (n ∈ E → resolve_name n E sfx = n ++ "_" ++ sfx ∧
      resolve_name n E sfx ≠ n ∧
      (n ++ "_" ++ sfx ∉ E → resolve_name n E sfx ∉ E)) := by
  constructor
  · intro h
    simp [resolve_name, h]
  · intro h
    have he : resolve_name n E sfx = n ++ "_" ++ sfx := by simp [resolve_name, h]
    refine ⟨he, ?_, ?_⟩
    · rw [he]
      intro hcontra
      have hlen := congrArg String.length hcontra
      have hu : ("_" : String).length = 1 := rfl
      simp [String.length_append, hu] at hlen
      omega
    · intro hnot
      rw [he]
      exact hnot

/-- C3, witness: the amended statement applied at a fresh name and at a
colliding name. -/
theorem c3_amended_witness :
    ("b" ∉ (["a"] : List String) ∧ resolve_name "b" ["a"] "x" = "b") ∧
    ("a" ∈ (["a"] : List String) ∧ resolve_name "a" ["a"] "x" = "a" ++ "_" ++ "x") := by
  refine ⟨⟨by simp, (c3_amended "b" "x" ["a"]).1 (by simp)⟩,
    ⟨by simp, ((c3_amended "a" "x" ["a"]).2 (by simp)).1⟩⟩

/-- C4: evaluation of the candidate-name derivation at the claim's own
example.  The declared calendar name is preferred when present, but for the
file named `basics.ics` the code's `rstrip(".ics")` removes trailing
characters drawn from the set containing dot, `i`, `c` and `s`, producing
`ba` instead of the intended `basics`. -/
theorem c4_code_eval :
    candidateName none "basics.ics" = "ba" ∧
    candidateName (some "Groceries") "basics.ics" = "Groceries" := by
  exact ⟨rfl, rfl⟩

/-- Record whose status is the completed token. -/
def recStatusC : CalendarRecord :=
  { emptyRec with status := some "COMPLETED" }

/-- Normalisation image of `recStatusC`. -/
def taskStatusC : TaskFields :=
  { color := "", completed := true, end_date := "", notes := "", parent := "",
    percent_complete := 0, priority := 0, start_date := "", tags := "",
    text := "", uid := none }

/-- C6: the imported task's completed flag is true exactly when the record's
status field case-sensitively equals `COMPLETED`; an absent status or any
other value gives false. -/
theorem c6_completed (r : CalendarRecord) (f : TaskFields)
    (h : normalizeRecord r = some f) :
    f.completed = true ↔ r.status = some "COMPLETED" := by
  obtain ⟨-, -, -, hc, -⟩ := normalize_fields r f h
  rw [hc]
  cases r.status with
  | none => simp
  | some s => simp [beq_iff_eq]

/-- C6, witness: a record with `STATUS:COMPLETED` normalises with the flag
set. -/
theorem c6_completed_witness :
    normalizeRecord recStatusC = some taskStatusC ∧
    (taskStatusC.completed = true ↔ recStatusC.status = some "COMPLETED") := by
  exact ⟨rfl, c6_completed recStatusC taskStatusC rfl⟩

/-- Record with a comma list of categories. -/
def recTagsC : CalendarRecord :=
  { emptyRec with categories := some (CatVal.one ["work", "urgent"]) }

/-- Normalisation image of `recTagsC`. -/
def taskTagsC : TaskFields :=
  { color := "", completed := false, end_date := "", notes := "", parent := "",
    percent_complete := 0, priority := 0, start_date := "", tags := "work,urgent",
    text := "", uid := none }

/-- C8: an absent categories field yields the empty tag sequence, and the
values of a single category property are joined with commas in their original
order. -/
theorem c8_tags (r : CalendarRecord) (f : TaskFields)
    (h : normalizeRecord r = some f) :
    (r.categories = none → f.tags = "") ∧
    (∀ cs, r.categories = some (CatVal.one cs) →
      f.tags = String.intercalate "," cs) := by
  obtain ⟨-, -, -, -, -, -, -, -, ht, -⟩ := normalize_fields r f h
  constructor
  · intro hn
    rw [ht, hn]
    rfl
  · intro cs hcs
    rw [ht, hcs]
    rfl

/-- C8, witness: `CATEGORIES:work,urgent` yields the tags `work,urgent` in
order. -/
theorem c8_tags_witness :
    normalizeRecord recTagsC = some taskTagsC ∧
    taskTagsC.tags = String.intercalate "," ["work", "urgent"] ∧
    String.intercalate "," ["work", "urgent"] = "work,urgent" := by
  refine ⟨rfl, (c8_tags recTagsC taskTagsC rfl).2 ["work", "urgent"] rfl, rfl⟩

/-- Record with UTC-marked start and due values. -/
def recDatesC : CalendarRecord :=
  { emptyRec with dtstart := some "20230101T120000Z",
                  due := some "20230115T000000Z" }

/-- Normalisation image of `recDatesC`. -/
def taskDatesC : TaskFields :=
  { color := "", completed := false, end_date := "20230115T000000", notes := "",
    parent := "", percent_complete := 0, priority := 0,
    start_date := "20230101T120000", tags := "", text := "", uid := none }

/-- C7: an absent date field gives the empty string; a present field whose
rendering does not begin with `Z` gives its rendering with the trailing UTC
`Z` designator stripped, and the end date takes the due field in preference
to the end field. -/
theorem c7_dates (r : CalendarRecord) (f : TaskFields)
    (h : normalizeRecord r = some f) :
    (r.dtstart = none → f.start_date = "") ∧
    (∀ s, r.dtstart = some s → s.data.head? ≠ some 'Z' →
      f.start_date = stripTrailingZ s) ∧
    (r.due = none → r.dtend = none → f.end_date = "") ∧
    (∀ s, r.due = some s → s.data.head? ≠ some 'Z' →
      f.end_date = stripTrailingZ s) ∧
    (∀ s, r.due = none → r.dtend = some s → s.data.head? ≠ some 'Z' →
      f.end_date = stripTrailingZ s) := by
  obtain ⟨-, -, -, -, he, -, -, hs, -⟩ := normalize_fields r f h
  refine ⟨?_, ?_, ?_, ?_, ?_⟩
  · intro hn
    rw [hs, hn]
    rfl
  · intro s hsome hhead
    rw [hs, hsome]
    exact pyStrip_Z_of_head s hhead
  · intro h1 h2
    rw [he]
    simp [pickEnd, h1, h2, dateField]
  · intro s hdue hhead
    rw [he]
    simp only [pickEnd, hdue, dateField]
    exact pyStrip_Z_of_head s hhead
  · intro s h1 h2 hhead
    rw [he]
    simp only [pickEnd, h1, h2, dateField]
    exact pyStrip_Z_of_head s hhead

/-- C7, witness: concrete UTC-marked start and due values lose their trailing
designator. -/
theorem c7_dates_witness :
    normalizeRecord recDatesC = some taskDatesC ∧
    ("20230101T120000Z".data.head? ≠ some 'Z') ∧
    taskDatesC.start_date = stripTrailingZ "20230101T120000Z" ∧
    taskDatesC.end_date = stripTrailingZ "20230115T000000Z" := by
  refine ⟨rfl, by decide, ?_, ?_⟩
  · exact (c7_dates recDatesC taskDatesC rfl).2.1 "20230101T120000Z" rfl (by decide)
  · exact (c7_dates recDatesC taskDatesC rfl).2.2.2.1 "20230115T000000Z" rfl (by decide)

/-- Reduction of a run on a successfully parsed document without a
list-creation failure. -/
theorem runImport_some (cal : ParsedCal) (b sfx : String) (failAt : Nat → Bool)
    (st : Store) :
    runImport (some cal) b sfx false failAt st =
      (match addTasks (add_list st (importName cal b sfx st)).1 failAt cal.todos 0
          (add_list st (importName cal b sfx st)).2 with
        | (true, st2) => ⟨RunOutcome.ok, st2, 1⟩
        | (false, st2) => ⟨RunOutcome.storeErr, st2, 0⟩) := rfl

/-- C2: on a successful run, each created row's parent is the raw related-to
value of its record — so a reference to the source uid of another record in
the batch equals that record's persisted uid (the source uid is persisted
unchanged), regardless of the two records' order, while a reference naming a
uid outside the batch is preserved as a dangling raw reference. -/
theorem c2_parent_linkage (cal : ParsedCal) (b sfx : String)
    (failAt : Nat → Bool) (st : Store)
    (hok : (runImport (some cal) b sfx false failAt st).outcome = RunOutcome.ok) :
    ∃ rows,
      (runImport (some cal) b sfx false failAt st).store.tasks = st.tasks ++ rows ∧
      (∀ j B x, cal.todos.get? j = some B → B.related_to = some x →
        ∃ rowB, rows.get? j = some rowB ∧ rowB.parent = x) ∧
      (∀ i A ua, cal.todos.get? i = some A → A.uid = some ua → ua ≠ "" →
        ∃ rowA, rows.get? i = some rowA ∧ rowA.uid = ua) := by
  rcases hA : addTasks (add_list st (importName cal b sfx st)).1 failAt cal.todos 0
      (add_list st (importName cal b sfx st)).2 with ⟨flag, st2⟩
  cases flag with
  | false =>
    rw [runImport_some, hA] at hok
    simp at hok
  | true =>
    have hflag : (addTasks (add_list st (importName cal b sfx st)).1 failAt cal.todos 0
        (add_list st (importName cal b sfx st)).2).1 = true := by rw [hA]
    obtain ⟨rows, hrows, hspec⟩ := addTasks_ok_rows _ failAt cal.todos 0 _ hflag
    rw [hA] at hrows
    refine ⟨rows, ?_, ?_, ?_⟩
    · rw [runImport_some, hA]
      simpa [add_list] using hrows
    · intro j B x hj hx
      obtain ⟨row, hrow, hpar, -⟩ := hspec j B hj
      refine ⟨row, hrow, ?_⟩
      rw [hpar, hx]
      rfl
    · intro i A ua hi hua hne
      obtain ⟨row, hrow, -, huid⟩ := hspec i A hi
      exact ⟨row, hrow, huid ua hua hne⟩

/-- An empty store, used by the concrete witness runs. -/
def stW : Store := ⟨[], [], 0⟩

/-- Record A of the C2 witness: carries source uid `A1`. -/
def recA : CalendarRecord := { emptyRec with uid := some "A1" }

/-- Record B of the C2 witness: references A's source uid. -/
def recB : CalendarRecord :=
  { emptyRec with uid := some "B1", related_to := some "A1" }

/-- The C2 witness document: B appears before A. -/
def calW : ParsedCal := ⟨some "Cal", [recB, recA]⟩

/-- C2, witness: in a document where A appears after B, B's created row's
parent equals A's persisted uid. -/
theorem c2_parent_linkage_witness :
    ∃ rows rowA rowB,
      (runImport (some calW) "f.ics" "sfx" false (fun _ => false) stW).store.tasks
        = stW.tasks ++ rows ∧
      rows.get? 1 = some rowA ∧ rowA.uid = "A1" ∧
      rows.get? 0 = some rowB ∧ rowB.parent = "A1" := by
  obtain ⟨rows, htasks, hrel, huid⟩ :=
    c2_parent_linkage calW "f.ics" "sfx" (fun _ => false) stW (by decide)
  obtain ⟨rowB, hB1, hB2⟩ := hrel 0 recB "A1" rfl rfl
  obtain ⟨rowA, hA1, hA2⟩ := huid 1 recA "A1" rfl rfl (by decide)
  exact ⟨rows, rowA, rowB, htasks, hA1, hA2, hB1, hB2⟩

/-- C5: a parse failure mutates nothing — the outcome is a parse error and
the store is unchanged, so no list and no task is created; conversely, when a
task mutation fails partway through, the run reports a store error but the
created list row and every already-applied task row remain committed, with no
rollback. -/
theorem c5_atomicity (b sfx : String) (listFail : Bool) (failAt : Nat → Bool)
    (st : Store) :
    (runImport none b sfx listFail failAt st).outcome = RunOutcome.parseErr ∧
    (runImport none b sfx listFail failAt st).store = st ∧
    ∀ cal, (runImport (some cal) b sfx false failAt st).outcome = RunOutcome.storeErr →
      (runImport (some cal) b sfx false failAt st).store.lists =
        st.lists ++ [ListRow.mk (genUid st.counter) (importName cal b sfx st) false] ∧
      ∃ rows, (runImport (some cal) b sfx false failAt st).store.tasks =
        st.tasks ++ rows := by
  refine ⟨rfl, rfl, ?_⟩
  intro cal hfail
  rcases hA : addTasks (add_list st (importName cal b sfx st)).1 failAt cal.todos 0
      (add_list st (importName cal b sfx st)).2 with ⟨flag, st2⟩
  have hlists := addTasks_lists (add_list st (importName cal b sfx st)).1 failAt
    cal.todos 0 (add_list st (importName cal b sfx st)).2
  obtain ⟨rows, hrows⟩ := addTasks_tasks (add_list st (importName cal b sfx st)).1 failAt
    cal.todos 0 (add_list st (importName cal b sfx st)).2
  rw [hA] at hlists hrows
  cases flag with
  | true =>
    rw [runImport_some, hA] at hfail
    simp at hfail
  | false =>
    rw [runImport_some, hA]
    constructor
    · show st2.lists = _
      rw [hlists]
      simp [add_list]
    · refine ⟨rows, ?_⟩
      show st2.tasks = _
      rw [hrows]
      simp [add_list]

/-- The single-record document of the C5 witness. -/
def calW5 : ParsedCal := ⟨some "C", [emptyRec]⟩

/-- C5, witness: with the store refusing the first task mutation, the run
reports a store error while the created list row survives and the task table
is only extended. -/
theorem c5_atomicity_witness :
    (runImport (some calW5) "f.ics" "s" false (fun _ => true) stW).outcome
      = RunOutcome.storeErr ∧
    ((runImport (some calW5) "f.ics" "s" false (fun _ => true) stW).store.lists =
        stW.lists ++ [ListRow.mk (genUid stW.counter) (importName calW5 "f.ics" "s" stW) false] ∧
      ∃ rows, (runImport (some calW5) "f.ics" "s" false (fun _ => true) stW).store.tasks =
        stW.tasks ++ rows) := by
  exact ⟨by decide, (c5_atomicity "f.ics" "s" false (fun _ => true) stW).2.2 calW5 (by decide)⟩

/-- C9: the sync trigger fires exactly once when the run succeeds and never
otherwise — zero calls on a parse failure, a list-creation failure or a
task-creation failure. -/
theorem c9_sync (p : Option ParsedCal) (b sfx : String) (listFail : Bool)
    (failAt : Nat → Bool) (st : Store) :
    (runImport p b sfx listFail failAt st).syncCalls =
      (if (runImport p b sfx listFail failAt st).outcome = RunOutcome.ok
        then 1 else 0) := by
  cases p with
  | none => rfl
  | some cal =>
    cases listFail with
    | true => rfl
    | false =>
      rcases hA : addTasks (add_list st (importName cal b sfx st)).1 failAt cal.todos 0
          (add_list st (importName cal b sfx st)).2 with ⟨flag, st2⟩
      rw [runImport_some, hA]
      cases flag <;> rfl

/-- C10: the collision check runs `SELECT name FROM lists` with no filter on
the `deleted` column, so a proposed name clashing only with a deleted list's
name is still in the comparison set and still receives the uniquifying
suffix, and the import creates its list under the suffixed name. -/
theorem c10_deleted_collide (st : Store) (u n sfx : String)
    (hdel : ListRow.mk u n true ∈ st.lists) :
    n ∈ existingNames st ∧
    resolve_name n (existingNames st) sfx = n ++ "_" ++ sfx ∧
    ∀ cal b failAt, cal.calname = some n →
      (runImport (some cal) b sfx false failAt st).store.lists =
        st.lists ++ [ListRow.mk (genUid st.counter) (n ++ "_" ++ sfx) false] := by
  have hmem : n ∈ existingNames st := List.mem_map.mpr ⟨⟨u, n, true⟩, hdel, rfl⟩
  have hres : resolve_name n (existingNames st) sfx = n ++ "_" ++ sfx := by
    simp [resolve_name, hmem]
  refine ⟨hmem, hres, ?_⟩
  intro cal b failAt hcal
  have hname : importName cal b sfx st = n ++ "_" ++ sfx := by
    rw [importName, candidateName, hcal]
    exact hres
  rcases hA : addTasks (add_list st (importName cal b sfx st)).1 failAt cal.todos 0
      (add_list st (importName cal b sfx st)).2 with ⟨flag, st2⟩
  have hlists := addTasks_lists (add_list st (importName cal b sfx st)).1 failAt
    cal.todos 0 (add_list st (importName cal b sfx st)).2
  rw [hA] at hlists
  rw [runImport_some, hA]
  cases flag with
  | true =>
    show st2.lists = _
    rw [hlists]
    simp [add_list, hname]
  | false =>
    show st2.lists = _
    rw [hlists]
    simp [add_list, hname]

/-- Store of the C10 witness: its only list is named `Groceries` and is
deleted. -/
def stDel : Store := ⟨[⟨"L1", "Groceries", true⟩], [], 0⟩

/-- C10, witness: a proposed name clashing only with the deleted list still
gets the suffix. -/
theorem c10_deleted_collide_witness :
    (ListRow.mk "L1" "Groceries" true ∈ stDel.lists) ∧
    ("Groceries" ∈ existingNames stDel ∧
      resolve_name "Groceries" (existingNames stDel) "tok" = "Groceries" ++ "_" ++ "tok" ∧
      ∀ cal b failAt, cal.calname = some "Groceries" →
        (runImport (some cal) b "tok" false failAt stDel).store.lists =
          stDel.lists ++ [ListRow.mk (genUid stDel.counter) ("Groceries" ++ "_" ++ "tok") false]) := by
  exact ⟨by decide, c10_deleted_collide stDel "L1" "Groceries" "tok" (by decide)⟩

end Errands
